import Mathlib

/-
Verification of the Riksbank monetary-policy API client
(src/monetary_policy_api.py and src/monetary_policy_tools.py).

The development shallowly embeds:
  * the URL construction of `riksbanken_request` (lines 37-42), including
    urllib.parse.urlencode with safe=":" down to UTF-8 percent-encoding;
  * the five-attempt retry loop of `riksbanken_request` (lines 44-78),
    instrumented with the backoff sleeps performed, the number of HTTP
    attempts made, and which program point produced the result;
  * the parameter-map construction of `get_policy_data`
    (monetary_policy_tools.py lines 43-60).

The remote network is abstracted as a function from the requested URL and
the attempt index to what that attempt observes: an HTTP response
(status code plus body) or a transport-level failure.
-/

/-- JSON values as parsed by `response.json()`; the client never inspects
them, it only passes them through verbatim, so the constructors act as an
opaque carrier with a distinguished empty object `Json.obj []`. -/
inductive Json where
  | null
  | bool (b : Bool)
  | num (n : Int)
  | str (s : String)
  | arr (elems : List Json)
  | obj (fields : List (String × Json))

/- ------------------------------------------------------------------ -/
/- URL construction: urlencode(params, safe=":") and full_url          -/
/- ------------------------------------------------------------------ -/

/-- UTF-8 encoding of one character, as Python's `str.encode("utf-8")`
produces for each code point (urllib percent-encodes these bytes). -/
def utf8Bytes (c : Char) : List Nat :=
  let n := c.toNat
  if n < 0x80 then [n]
  else if n < 0x800 then [0xC0 + n / 0x40, 0x80 + n % 0x40]
  else if n < 0x10000 then
    [0xE0 + n / 0x1000, 0x80 + (n / 0x40) % 0x40, 0x80 + n % 0x40]
  else
    [0xF0 + n / 0x40000, 0x80 + (n / 0x1000) % 0x40,
      0x80 + (n / 0x40) % 0x40, 0x80 + n % 0x40]

/-- Uppercase hexadecimal digit, as urllib's percent-encoding emits. -/
def hexDigit (n : Nat) : Char :=
  if n < 10 then Char.ofNat (48 + n) else Char.ofNat (55 + n)

/-- Percent-encoding of one byte: the three-character triple `%XX`. -/
def pctByte (b : Nat) : List Char :=
  ['%', hexDigit (b / 16), hexDigit (b % 16)]

/-- Characters urllib never quotes: ASCII letters, digits, and `_.-~`. -/
def alwaysSafeChar (c : Char) : Bool :=
  c.isAlpha || c.isDigit || c = '_' || c = '.' || c = '-' || c = '~'

/-- Model of `urllib.parse.quote_plus` with `safe=":"` on one character:
a space becomes `+`, always-safe characters and the colon stay literal,
every other character is percent-encoded byte by byte over its UTF-8
encoding. -/
def quotePlusColonChar (c : Char) : List Char :=
  if c = ' ' then ['+']
  else if alwaysSafeChar c || c = ':' then [c]
  else ((utf8Bytes c).map pctByte).flatten

/-- `quote_plus` with `safe=":"` over a whole string. -/
def quotePlusColon (s : String) : List Char :=
  (s.data.map quotePlusColonChar).flatten

/-- Encoded `key=value` segment of one query parameter, as urlencode
builds it. -/
def pairSeg (kv : String × String) : List Char :=
  quotePlusColon kv.1 ++ '=' :: quotePlusColon kv.2

/-- Model of `urllib.parse.urlencode(params, safe=":")` (line 41 of
monetary_policy_api.py): the `key=value` segments joined by ampersands,
in insertion order of the parameter map. -/
def urlencodeChars : List (String × String) → List Char
  | [] => []
  | [kv] => pairSeg kv
  | kv :: rest => pairSeg kv ++ '&' :: urlencodeChars rest

/-- The query string built on line 41 of monetary_policy_api.py. -/
def query_string (params : List (String × String)) : String :=
  ⟨urlencodeChars params⟩

/-- BASE_URL constant (monetary_policy_api.py line 17). -/
def BASE_URL : String :=
  "https://api.riksbank.se/monetary_policy_data/v1/forecasts"

/-- The full request URL (monetary_policy_api.py lines 37-42): the base,
an optional endpoint suffix after a slash, and the query string after a
question mark when non-empty.  `params` is optional in the source and
`None` is coalesced to the empty map (`params or {}`). -/
def full_url (endpoint : String) (params : Option (List (String × String))) :
    String :=
  let url := if endpoint ≠ "" then BASE_URL ++ "/" ++ endpoint else BASE_URL
  let qs := query_string (params.getD [])
  if qs ≠ "" then url ++ "?" ++ qs else url

/- ------------------------------------------------------------------ -/
/- The retry loop of riksbanken_request                                -/
/- ------------------------------------------------------------------ -/

/-- Body of an HTTP response as the client observes it: empty content,
content that parses as JSON, or content whose JSON parse fails. -/
inductive RespBody where
  | empty
  | json (j : Json)
  | malformed

/-- An HTTP response: status code and body. -/
structure HttpResponse where
  status : Nat
  body : RespBody

/-- What one `client.get` attempt yields: an HTTP response, or a
transport-level failure (an httpx error that carries no response
attribute: connection failure, timeout, ...). -/
inductive AttemptResult where
  | response (r : HttpResponse)
  | transportError

/-- Errors `riksbanken_request` can raise: an `httpx.HTTPStatusError`
carrying the response's status, an httpx transport error, or a JSON
decode error (a `ValueError`, which the `except httpx.HTTPError` handler
does not catch). -/
inductive Err where
  | httpStatus (status : Nat)
  | transportError
  | parseError

/-- Result of a call: a returned JSON value or a raised error. -/
inductive Outcome where
  | ok (j : Json)
  | err (e : Err)

/-- Instrumented result of one `riksbanken_request` call: the outcome,
the backoff sleeps performed in order (seconds), the number of
`client.get` attempts made, and whether the result came from the
`return {}` after the loop (line 78) rather than from inside the loop. -/
structure RunResult where
  outcome : Outcome
  sleeps : List Nat
  attempts : Nat
  viaFallthrough : Bool

/-- max_retries (monetary_policy_api.py line 44). -/
def max_retries : Nat := 5

/-- retry_delays: exponential backoff delays in seconds (line 45). -/
def retry_delays : List Nat := [1, 2, 4, 8, 16]

/-- httpx `Response.is_success`: the 2xx statuses; `raise_for_status`
raises `HTTPStatusError` for every other status. -/
def is2xx (s : Nat) : Bool := 200 ≤ s && s < 300

/-- Account for one more `client.get` attempt, and optionally one backoff
sleep, performed before the rest of the run. -/
def bump (w : Option Nat) (r : RunResult) : RunResult :=
  ⟨r.outcome, w.toList ++ r.sleeps, r.attempts + 1, r.viaFallthrough⟩

/-- Result of line 69, `return response.json() if response.content else {}`,
on a 2xx response: empty content gives the empty object, parsing content
gives the parsed value, and a failing parse raises `json.JSONDecodeError`
(which the `except httpx.HTTPError` handler does not catch). -/
def bodyResult : RespBody → RunResult
  | .empty => ⟨.ok (Json.obj []), [], 1, false⟩
  | .json j => ⟨.ok j, [], 1, false⟩
  | .malformed => ⟨.err .parseError, [], 1, false⟩

/-- The attempt loop of `riksbanken_request` (lines 47-78), one case per
branch of the source.  `trace i` is what the remote does on attempt `i`;
`fuel` is the number of loop iterations left (`max_retries - attempt`),
and fuel 0 is the fall-through `return {}` on line 78.

Branch correspondence:
  * transport error: the `except httpx.HTTPError` handler (line 71)
    re-raises on the last attempt (line 73); otherwise the
    `hasattr(e, 'response')` test on line 75 is false for a transport
    error, the handler falls through, and the loop continues with no
    sleep;
  * status 404: `return {}` (lines 53-55);
  * status 429: sleep `retry_delays[attempt]` and retry (lines 59-63)
    when attempts remain, else `raise_for_status` (line 66) raises and
    the handler re-raises it because this is the last attempt;
  * other non-2xx: `raise_for_status` (line 68) raises and the handler
    re-raises, either because this is the last attempt (line 73) or
    because the error carries a response with status ≠ 429 (line 75);
  * 2xx: `return response.json() if response.content else {}` (line 69),
    where a failing parse raises `json.JSONDecodeError`, which the
    handler does not catch. -/
def attemptLoop (trace : Nat → AttemptResult) : Nat → Nat → RunResult
  | _, 0 => ⟨.ok (Json.obj []), [], 0, true⟩
  | attempt, fuel + 1 =>
    match trace attempt with
    | .transportError =>
      if attempt = max_retries - 1 then ⟨.err .transportError, [], 1, false⟩
      else bump none (attemptLoop trace (attempt + 1) fuel)
    | .response r =>
      if r.status = 404 then ⟨.ok (Json.obj []), [], 1, false⟩
      else if r.status = 429 then
        if attempt < max_retries - 1 then
          bump (some (retry_delays.getD attempt 0))
            (attemptLoop trace (attempt + 1) fuel)
        else ⟨.err (.httpStatus 429), [], 1, false⟩
      else if is2xx r.status then bodyResult r.body
      else ⟨.err (.httpStatus r.status), [], 1, false⟩

/-- `riksbanken_request` (monetary_policy_api.py lines 20-78): build
`full_url` once, then run the attempt loop from attempt 0 with
`max_retries` iterations.  `remote` gives, for each requested URL and
attempt index, what the network does on that attempt. -/
def riksbanken_request (endpoint : String)
    (params : Option (List (String × String)))
    (remote : String → Nat → AttemptResult) : RunResult :=
  attemptLoop (remote (full_url endpoint params)) 0 max_retries

/-- Two successive calls with the same arguments against the same remote
behaviour.  The module's only globals are the immutable constants
BASE_URL, max_retries and retry_delays, so each call is a pure function
of its arguments. -/
def twoCalls (endpoint : String) (params : Option (List (String × String)))
    (remote : String → Nat → AttemptResult) : RunResult × RunResult :=
  (riksbanken_request endpoint params remote,
    riksbanken_request endpoint params remote)

/-- `get_policy_data` (monetary_policy_tools.py lines 43-60): the
parameter map starts with `series_id`; `policy_round` is appended only
when truthy in Python's sense, i.e. not `None` and not the empty
string. -/
def get_policy_data (series_id : String) (policy_round : Option String)
    (remote : String → Nat → AttemptResult) : RunResult :=
  let params :=
    match policy_round with
    | none => [("series_id", series_id)]
    | some r =>
      if r ≠ "" then [("series_id", series_id), ("policy_round", r)]
      else [("series_id", series_id)]
  riksbanken_request "data" (some params) remote

example :
    (riksbanken_request "policy_rounds" none
      (fun _ _ => .response ⟨404, .empty⟩)).attempts = 1 := rfl

example :
    (riksbanken_request "" none (fun _ _ => .response ⟨429, .empty⟩)).sleeps
      = [1, 2, 4, 8] := rfl

example :
    (riksbanken_request "" none
      (fun _ i => if i = 0 then .transportError
        else .response ⟨404, .empty⟩)).attempts = 2 := rfl

example : urlencodeChars [("round", "2024:3")] = "round=2024:3".data := rfl

example :
    full_url "data" (some [("series_id", "X"), ("policy_round", "2024:3")])
      = "https://api.riksbank.se/monetary_policy_data/v1/forecasts/data?series_id=X&policy_round=2024:3" := rfl

/- ------------------------------------------------------------------ -/
/- Helper lemmas about the attempt loop                                -/
/- ------------------------------------------------------------------ -/

lemma attemptLoop_transport (trace : Nat → AttemptResult) (i fuel : Nat)
    (h : trace i = .transportError) :
    attemptLoop trace i (fuel + 1) =
      if i = max_retries - 1 then ⟨.err .transportError, [], 1, false⟩
      else bump none (attemptLoop trace (i + 1) fuel) := by
  simp only [attemptLoop, h]

lemma attemptLoop_response (trace : Nat → AttemptResult) (i fuel s : Nat)
    (b : RespBody) (h : trace i = .response ⟨s, b⟩) :
    attemptLoop trace i (fuel + 1) =
      if s = 404 then ⟨.ok (Json.obj []), [], 1, false⟩
      else if s = 429 then
        if i < max_retries - 1 then
          bump (some (retry_delays.getD i 0))
            (attemptLoop trace (i + 1) fuel)
        else ⟨.err (.httpStatus 429), [], 1, false⟩
      else if is2xx s then bodyResult b
      else ⟨.err (.httpStatus s), [], 1, false⟩ := by
  simp only [attemptLoop, h]

/- ------------------------------------------------------------------ -/
/- Claim theorems about the retry behaviour                            -/
/- ------------------------------------------------------------------ -/

/-- C4: a 404 on the first attempt makes the call return the empty object
with no raised error, no backoff sleeps, and no further HTTP attempts,
for every endpoint suffix and parameter map. -/
theorem riksbanken_request_404_empty (endpoint : String)
    (params : Option (List (String × String)))
    (remote : String → Nat → AttemptResult) (b : RespBody)
    (h : remote (full_url endpoint params) 0 = .response ⟨404, b⟩) :
    riksbanken_request endpoint params remote =
      ⟨.ok (Json.obj []), [], 1, false⟩ := by
  show attemptLoop (remote (full_url endpoint params)) 0 max_retries = _
  rw [show max_retries = 4 + 1 from rfl, attemptLoop_response _ _ _ _ _ h]
  simp

theorem riksbanken_request_404_empty_witness :
    riksbanken_request "policy_rounds" (some [("series_id", "SEQGDPNAYCA")])
        (fun _ _ => .response ⟨404, .empty⟩) =
      ⟨.ok (Json.obj []), [], 1, false⟩ :=
  riksbanken_request_404_empty "policy_rounds"
    (some [("series_id", "SEQGDPNAYCA")]) (fun _ _ => .response ⟨404, .empty⟩)
    .empty rfl

/-- C5: a response whose status is neither 2xx nor 404 nor 429 makes the
call raise the propagated HTTP status error immediately, with no backoff
sleeps and no further attempts, from whichever attempt index it occurs
on. -/
theorem riksbanken_request_fatal_status (trace : Nat → AttemptResult)
    (i s : Nat) (b : RespBody) (hi : i < max_retries)
    (h : trace i = .response ⟨s, b⟩) (h2 : is2xx s = false)
    (h404 : s ≠ 404) (h429 : s ≠ 429) :
    attemptLoop trace i (max_retries - i) =
      ⟨.err (.httpStatus s), [], 1, false⟩ := by
  obtain ⟨k, hk⟩ : ∃ k, max_retries - i = k + 1 :=
    ⟨max_retries - i - 1, by simp only [max_retries] at hi ⊢; omega⟩
  rw [hk, attemptLoop_response _ _ _ _ _ h, if_neg h404, if_neg h429,
    if_neg (by simp [h2])]

theorem riksbanken_request_fatal_status_witness :
    attemptLoop (fun _ => .response ⟨500, .empty⟩) 0 (max_retries - 0) =
      ⟨.err (.httpStatus 500), [], 1, false⟩ :=
  riksbanken_request_fatal_status (fun _ => .response ⟨500, .empty⟩) 0 500
    .empty (by simp [max_retries]) rfl (by simp [is2xx]) (by simp) (by simp)

/-- C7: a 2xx response with an empty body makes the call return the empty
object, raising no JSON-parse error, from whichever attempt index it
occurs on. -/
theorem riksbanken_request_2xx_empty_body (trace : Nat → AttemptResult)
    (i s : Nat) (hi : i < max_retries)
    (h : trace i = .response ⟨s, .empty⟩) (hs : is2xx s = true) :
    attemptLoop trace i (max_retries - i) =
      ⟨.ok (Json.obj []), [], 1, false⟩ := by
  obtain ⟨k, hk⟩ : ∃ k, max_retries - i = k + 1 :=
    ⟨max_retries - i - 1, by simp only [max_retries] at hi ⊢; omega⟩
  have hs' : 200 ≤ s ∧ s < 300 := by simpa [is2xx] using hs
  rw [hk, attemptLoop_response _ _ _ _ _ h, if_neg (by omega),
    if_neg (by omega), if_pos hs]
  rfl

theorem riksbanken_request_2xx_empty_body_witness :
    attemptLoop (fun _ => .response ⟨200, .empty⟩) 0 (max_retries - 0) =
      ⟨.ok (Json.obj []), [], 1, false⟩ :=
  riksbanken_request_2xx_empty_body (fun _ => .response ⟨200, .empty⟩) 0 200
    (by simp [max_retries]) rfl (by simp [is2xx])

lemma attemptLoop_429_step (trace : Nat → AttemptResult) (i fuel : Nat)
    (b : RespBody) (h : trace i = .response ⟨429, b⟩)
    (hi : i < max_retries - 1) :
    attemptLoop trace i (fuel + 1) =
      bump (some (retry_delays.getD i 0))
        (attemptLoop trace (i + 1) fuel) := by
  rw [attemptLoop_response _ _ _ _ _ h, if_neg (by decide), if_pos rfl,
    if_pos hi]

/-- C2: four consecutive 429 responses followed by a 2xx with a JSON body
yield that body verbatim, after exactly the four backoff sleeps 1, 2, 4,
8 seconds in order and five HTTP attempts. -/
theorem riksbanken_request_429_then_success (endpoint : String)
    (params : Option (List (String × String)))
    (remote : String → Nat → AttemptResult) (s : Nat) (j : Json)
    (h429 : ∀ i, i < 4 →
      ∃ b, remote (full_url endpoint params) i = .response ⟨429, b⟩)
    (hs : is2xx s = true)
    (h4 : remote (full_url endpoint params) 4 = .response ⟨s, .json j⟩) :
    riksbanken_request endpoint params remote =
      ⟨.ok j, [1, 2, 4, 8], 5, false⟩ := by
  obtain ⟨b0, h0⟩ := h429 0 (by omega)
  obtain ⟨b1, h1⟩ := h429 1 (by omega)
  obtain ⟨b2, h2⟩ := h429 2 (by omega)
  obtain ⟨b3, h3⟩ := h429 3 (by omega)
  have hs' : 200 ≤ s ∧ s < 300 := by simpa [is2xx] using hs
  show attemptLoop (remote (full_url endpoint params)) 0 (4 + 1) = _
  rw [attemptLoop_429_step _ _ _ _ h0 (by decide),
    attemptLoop_429_step _ _ _ _ h1 (by decide),
    attemptLoop_429_step _ _ _ _ h2 (by decide),
    attemptLoop_429_step _ _ _ _ h3 (by decide),
    attemptLoop_response _ _ _ _ _ h4, if_neg (by omega), if_neg (by omega),
    if_pos hs]
  rfl

theorem riksbanken_request_429_then_success_witness :
    riksbanken_request "data" (some [("series_id", "SEQGDPNAYCA")])
        (fun _ i => if i < 4 then .response ⟨429, .empty⟩
          else .response ⟨200, .json (Json.str "payload")⟩) =
      ⟨.ok (Json.str "payload"), [1, 2, 4, 8], 5, false⟩ :=
  riksbanken_request_429_then_success "data"
    (some [("series_id", "SEQGDPNAYCA")])
    (fun _ i => if i < 4 then .response ⟨429, .empty⟩
      else .response ⟨200, .json (Json.str "payload")⟩)
    200 (Json.str "payload")
    (fun i hi => ⟨.empty, by simp [hi]⟩) (by decide) (by simp)

/-- C3: five consecutive 429 responses make the call raise the propagated
HTTP 429 error after exactly five attempts and exactly the four backoff
sleeps 1, 2, 4, 8 seconds (no fifth sleep). -/
theorem riksbanken_request_429_exhausted (endpoint : String)
    (params : Option (List (String × String)))
    (remote : String → Nat → AttemptResult)
    (h429 : ∀ i, i < max_retries →
      ∃ b, remote (full_url endpoint params) i = .response ⟨429, b⟩) :
    riksbanken_request endpoint params remote =
      ⟨.err (.httpStatus 429), [1, 2, 4, 8], 5, false⟩ := by
  obtain ⟨b0, h0⟩ := h429 0 (by decide)
  obtain ⟨b1, h1⟩ := h429 1 (by decide)
  obtain ⟨b2, h2⟩ := h429 2 (by decide)
  obtain ⟨b3, h3⟩ := h429 3 (by decide)
  obtain ⟨b4, h4⟩ := h429 4 (by decide)
  show attemptLoop (remote (full_url endpoint params)) 0 (4 + 1) = _
  rw [attemptLoop_429_step _ _ _ _ h0 (by decide),
    attemptLoop_429_step _ _ _ _ h1 (by decide),
    attemptLoop_429_step _ _ _ _ h2 (by decide),
    attemptLoop_429_step _ _ _ _ h3 (by decide),
    attemptLoop_response _ _ _ _ _ h4, if_neg (by decide), if_pos rfl,
    if_neg (by decide)]
  rfl

theorem riksbanken_request_429_exhausted_witness :
    riksbanken_request "series" none (fun _ _ => .response ⟨429, .empty⟩) =
      ⟨.err (.httpStatus 429), [1, 2, 4, 8], 5, false⟩ :=
  riksbanken_request_429_exhausted "series" none
    (fun _ _ => .response ⟨429, .empty⟩) (fun _ _ => ⟨.empty, rfl⟩)

/-- C1 counterexample: with a transport failure on attempt 0 and a 404 on
attempt 1, the call does not propagate the transport error on the attempt
where it occurred; it makes a second HTTP attempt and returns that
attempt's result, refuting immediate propagation of non-429 transport
errors. -/
theorem transport_error_not_immediate :
    (riksbanken_request "policy_rounds" none
        (fun _ i => if i = 0 then .transportError
          else .response ⟨404, .empty⟩)).attempts = 2 ∧
    (riksbanken_request "policy_rounds" none
        (fun _ i => if i = 0 then .transportError
          else .response ⟨404, .empty⟩)).outcome = .ok (Json.obj []) :=
  ⟨rfl, rfl⟩

/-- C1 amended: a transport-level error (an httpx error with no response
attached) is propagated only when it occurs on the final attempt; on any
earlier attempt the loop retries immediately, with no backoff sleep.  A
malformed 2xx response body is still propagated immediately on any
attempt, as a JSON parse error that the httpx.HTTPError handler does not
catch. -/
theorem transport_error_amended :
    (∀ (trace : Nat → AttemptResult) (i : Nat), trace i = .transportError →
      (i < max_retries - 1 →
        attemptLoop trace i (max_retries - i) =
          bump none (attemptLoop trace (i + 1) (max_retries - (i + 1)))) ∧
      (i = max_retries - 1 →
        attemptLoop trace i (max_retries - i) =
          ⟨.err .transportError, [], 1, false⟩)) ∧
    (∀ (trace : Nat → AttemptResult) (i s : Nat), i < max_retries →
      trace i = .response ⟨s, .malformed⟩ → is2xx s = true →
      attemptLoop trace i (max_retries - i) =
        ⟨.err .parseError, [], 1, false⟩) := by
  constructor
  · intro trace i h
    constructor
    · intro hlt
      obtain ⟨k, hk⟩ : ∃ k, max_retries - i = k + 1 :=
        ⟨max_retries - i - 1, by simp only [max_retries] at hlt ⊢; omega⟩
      have hk' : max_retries - (i + 1) = k := by
        simp only [max_retries] at hlt hk ⊢; omega
      rw [hk, hk', attemptLoop_transport _ _ _ h,
        if_neg (by simp only [max_retries] at hlt ⊢; omega)]
    · intro he
      subst he
      rw [show max_retries - (max_retries - 1) = 0 + 1 from rfl,
        attemptLoop_transport _ _ _ h, if_pos rfl]
  · intro trace i s hi h hs
    obtain ⟨k, hk⟩ : ∃ k, max_retries - i = k + 1 :=
      ⟨max_retries - i - 1, by simp only [max_retries] at hi ⊢; omega⟩
    have hs' : 200 ≤ s ∧ s < 300 := by simpa [is2xx] using hs
    rw [hk, attemptLoop_response _ _ _ _ _ h, if_neg (by omega),
      if_neg (by omega), if_pos hs]
    rfl

theorem transport_error_amended_witness :
    attemptLoop (fun _ => .transportError) 0 (max_retries - 0) =
      bump none
        (attemptLoop (fun _ => .transportError) (0 + 1)
          (max_retries - (0 + 1))) :=
  (transport_error_amended.1 (fun _ => .transportError) 0 rfl).1 (by decide)

/-- C8: the helper holds no mutable cross-call state: against the same
remote behaviour the two calls of a pair yield identical results (hence
identical Success / EmptyResult / Fatal classifications), and each call
of the pair equals a standalone call with the same arguments, so neither
call changes the behaviour of the other. -/
theorem riksbanken_request_stateless :
    ∀ (endpoint : String) (params : Option (List (String × String)))
      (remote : String → Nat → AttemptResult),
      (twoCalls endpoint params remote).1 =
        (twoCalls endpoint params remote).2 ∧
      (twoCalls endpoint params remote).1.outcome =
        (twoCalls endpoint params remote).2.outcome ∧
      (twoCalls endpoint params remote).1 =
        riksbanken_request endpoint params remote ∧
      (twoCalls endpoint params remote).2 =
        riksbanken_request endpoint params remote :=
  fun _ _ _ => ⟨rfl, rfl, rfl, rfl⟩

/-- C9: get_policy_data omits policy_round for any falsy value — the
empty string behaves exactly like None, sending only series_id — while a
non-empty policy_round is sent alongside the required series_id under
endpoint "data". -/
theorem get_policy_data_round_truthiness :
    (∀ (sid : String) (remote : String → Nat → AttemptResult),
      get_policy_data sid (some "") remote =
        get_policy_data sid none remote) ∧
    (∀ (sid : String) (remote : String → Nat → AttemptResult),
      get_policy_data sid none remote =
        riksbanken_request "data" (some [("series_id", sid)]) remote) ∧
    (∀ (sid r : String) (remote : String → Nat → AttemptResult), r ≠ "" →
      get_policy_data sid (some r) remote =
        riksbanken_request "data"
          (some [("series_id", sid), ("policy_round", r)]) remote) := by
  refine ⟨fun sid remote => ?_, fun sid remote => rfl,
    fun sid r remote hr => ?_⟩
  · simp [get_policy_data]
  · simp [get_policy_data, hr]

theorem get_policy_data_round_truthiness_witness :
    get_policy_data "SEQGDPNAYCA" (some "2024:3")
        (fun _ _ => .transportError) =
      riksbanken_request "data"
        (some [("series_id", "SEQGDPNAYCA"), ("policy_round", "2024:3")])
        (fun _ _ => .transportError) :=
  get_policy_data_round_truthiness.2.2 "SEQGDPNAYCA" "2024:3"
    (fun _ _ => .transportError) (by decide)

lemma attemptLoop_inside (trace : Nat → AttemptResult) :
    ∀ fuel i, i + fuel = max_retries → 0 < fuel →
      (attemptLoop trace i fuel).viaFallthrough = false ∧
      1 ≤ (attemptLoop trace i fuel).attempts ∧
      (attemptLoop trace i fuel).attempts ≤ fuel := by
  intro fuel
  induction fuel with
  | zero => intro i _ h; omega
  | succ k ih =>
    intro i hsum _
    cases htr : trace i with
    | transportError =>
      rw [attemptLoop_transport _ _ _ htr]
      by_cases hi : i = max_retries - 1
      · rw [if_pos hi]; exact ⟨rfl, le_refl 1, Nat.le_add_left 1 k⟩
      · rw [if_neg hi]
        have hk : 0 < k := by simp only [max_retries] at hsum hi ⊢; omega
        have hrec := ih (i + 1) (by omega) hk
        simp only [bump, Option.toList]
        exact ⟨hrec.1, by omega, by omega⟩
    | response r =>
      rw [attemptLoop_response _ _ _ r.status r.body (by rw [htr])]
      by_cases h404 : r.status = 404
      · rw [if_pos h404]; exact ⟨rfl, le_refl 1, Nat.le_add_left 1 k⟩
      · rw [if_neg h404]
        by_cases h429 : r.status = 429
        · rw [if_pos h429]
          by_cases hi : i < max_retries - 1
          · rw [if_pos hi]
            have hk : 0 < k := by simp only [max_retries] at hsum hi ⊢; omega
            have hrec := ih (i + 1) (by omega) hk
            simp only [bump, Option.toList]
            exact ⟨hrec.1, by omega, by omega⟩
          · rw [if_neg hi]; exact ⟨rfl, le_refl 1, Nat.le_add_left 1 k⟩
        · rw [if_neg h429]
          by_cases h2 : is2xx r.status
          · rw [if_pos h2]
            cases r.body with
            | empty => exact ⟨rfl, le_refl 1, Nat.le_add_left 1 k⟩
            | json j => exact ⟨rfl, le_refl 1, Nat.le_add_left 1 k⟩
            | malformed => exact ⟨rfl, le_refl 1, Nat.le_add_left 1 k⟩
          · rw [if_neg h2]; exact ⟨rfl, le_refl 1, Nat.le_add_left 1 k⟩

/-- C10: every call terminates from inside the five-iteration attempt
loop: the trailing `return {}` after the loop is never the source of the
result, at least one and at most max_retries = 5 HTTP attempts are made,
for every endpoint, parameter map and remote behaviour. -/
theorem riksbanken_request_loop_exit :
    ∀ (endpoint : String) (params : Option (List (String × String)))
      (remote : String → Nat → AttemptResult),
      (riksbanken_request endpoint params remote).viaFallthrough = false ∧
      1 ≤ (riksbanken_request endpoint params remote).attempts ∧
      (riksbanken_request endpoint params remote).attempts ≤ max_retries :=
  fun endpoint params remote =>
    attemptLoop_inside (remote (full_url endpoint params)) max_retries 0 rfl
      (by decide)

/- ------------------------------------------------------------------ -/
/- C6: colons survive urlencode(params, safe=":") unescaped            -/
/- ------------------------------------------------------------------ -/

/-- Occurrence of `pat` as a contiguous sublist of `l`. -/
def hasSub (pat l : List Char) : Prop := ∃ s t, l = s ++ pat ++ t

/-- The percent-encoding a colon would get, which must never appear. -/
def pct3A : List Char := ['%', '3', 'A']

/-- Shape of the atomic chunks the encoded query string is concatenated
from: a single non-percent character, or a full percent triple that is
not the encoding of a colon (its digits are never `%` themselves). -/
def BlockShape (l : List Char) : Prop :=
  (∃ c, l = [c] ∧ c ≠ '%') ∨
  (∃ d1 d2, l = ['%', d1, d2] ∧ d1 ≠ '%' ∧ d2 ≠ '%' ∧ ¬(d1 = '3' ∧ d2 = 'A'))

lemma hasSub_pct3A_cons {c : Char} {l : List Char}
    (h : hasSub pct3A (c :: l)) :
    (c = '%' ∧ ∃ t, l = '3' :: 'A' :: t) ∨ hasSub pct3A l := by
  obtain ⟨s, t, heq⟩ := h
  cases s with
  | nil =>
    simp only [pct3A, List.nil_append, List.cons_append, List.append_assoc,
      List.cons.injEq] at heq
    exact Or.inl ⟨heq.1, t, heq.2⟩
  | cons a s' =>
    simp only [pct3A, List.cons_append, List.append_assoc,
      List.cons.injEq] at heq
    refine Or.inr ⟨s', t, ?_⟩
    rw [heq.2]
    simp [pct3A]

lemma flatten_no_pct3A :
    ∀ bs : List (List Char), (∀ b ∈ bs, BlockShape b) →
      ¬ hasSub pct3A bs.flatten := by
  intro bs
  induction bs with
  | nil =>
    intro _ h
    obtain ⟨s, t, heq⟩ := h
    exact absurd (congrArg List.length heq) (by simp [pct3A]; omega)
  | cons b rest ih =>
    intro hall hsub
    have hb := hall b (by simp)
    have hrest := ih (fun x hx => hall x (by simp [hx]))
    rw [List.flatten_cons] at hsub
    rcases hb with ⟨c, rfl, hc⟩ | ⟨d1, d2, rfl, hp1, hp2, hne⟩
    · rw [List.singleton_append] at hsub
      rcases hasSub_pct3A_cons hsub with ⟨rfl, _⟩ | hs
      · exact hc rfl
      · exact hrest hs
    · rw [show (['%', d1, d2] : List Char) ++ rest.flatten
          = '%' :: d1 :: d2 :: rest.flatten from rfl] at hsub
      rcases hasSub_pct3A_cons hsub with ⟨_, t, ht⟩ | hs1
      · simp only [List.cons.injEq] at ht
        exact hne ⟨ht.1, ht.2.1⟩
      · rcases hasSub_pct3A_cons hs1 with ⟨he, _⟩ | hs2
        · exact hp1 he
        · rcases hasSub_pct3A_cons hs2 with ⟨he, _⟩ | hs3
          · exact hp2 he
          · exact hrest hs3

/-- Atomic chunks quote_plus produces for one character. -/
def charBlocks (c : Char) : List (List Char) :=
  if c = ' ' then [['+']]
  else if alwaysSafeChar c || c = ':' then [[c]]
  else (utf8Bytes c).map pctByte

lemma quotePlusColonChar_eq_flatten (c : Char) :
    quotePlusColonChar c = (charBlocks c).flatten := by
  unfold quotePlusColonChar charBlocks
  split_ifs <;> simp

lemma flatten_map_qpc (l : List Char) :
    (l.map quotePlusColonChar).flatten =
      ((l.map charBlocks).flatten).flatten := by
  induction l with
  | nil => rfl
  | cons c cs ih =>
    simp [quotePlusColonChar_eq_flatten, ih, List.flatten_append]

/-- Atomic chunks for a whole quoted string. -/
def strBlocks (s : String) : List (List Char) :=
  (s.data.map charBlocks).flatten

lemma quotePlusColon_eq_flatten (s : String) :
    quotePlusColon s = (strBlocks s).flatten :=
  flatten_map_qpc s.data

/-- Atomic chunks for one key=value segment. -/
def pairBlocks (kv : String × String) : List (List Char) :=
  strBlocks kv.1 ++ [['=']] ++ strBlocks kv.2

lemma pairSeg_eq_flatten (kv : String × String) :
    pairSeg kv = (pairBlocks kv).flatten := by
  unfold pairSeg pairBlocks
  simp [quotePlusColon_eq_flatten, List.flatten_append]

/-- Atomic chunks for the whole query string. -/
def allBlocks : List (String × String) → List (List Char)
  | [] => []
  | [kv] => pairBlocks kv
  | kv :: rest => pairBlocks kv ++ [['&']] ++ allBlocks rest

lemma urlencodeChars_eq_flatten (params : List (String × String)) :
    urlencodeChars params = (allBlocks params).flatten := by
  induction params with
  | nil => rfl
  | cons kv rest ih =>
    cases rest with
    | nil => simp [urlencodeChars, allBlocks, pairSeg_eq_flatten]
    | cons kv2 rest2 =>
      simp only [urlencodeChars, allBlocks] at ih ⊢
      rw [ih]
      simp [pairSeg_eq_flatten, List.flatten_append]

lemma char_toNat_lt (c : Char) : c.toNat < 0x110000 := by
  rcases c.valid with h | ⟨h1, h2⟩
  · exact Nat.lt_trans h (by norm_num)
  · exact h2

lemma utf8Bytes_bounds (c : Char) :
    ∀ b ∈ utf8Bytes c, b < 256 ∧ (b = c.toNat ∨ 0x80 ≤ b) := by
  intro b hb
  have hc := char_toNat_lt c
  simp only [utf8Bytes] at hb
  split_ifs at hb with h1 h2 h3 <;> simp only [List.mem_cons,
    List.mem_singleton, List.not_mem_nil, or_false] at hb
  · exact ⟨by omega, Or.inl hb⟩
  · rcases hb with rfl | rfl
    · exact ⟨by omega, Or.inr (by omega)⟩
    · exact ⟨by omega, Or.inr (by omega)⟩
  · rcases hb with rfl | rfl | rfl
    · exact ⟨by omega, Or.inr (by omega)⟩
    · exact ⟨by omega, Or.inr (by omega)⟩
    · exact ⟨by omega, Or.inr (by omega)⟩
  · rcases hb with rfl | rfl | rfl | rfl
    · exact ⟨by omega, Or.inr (by omega)⟩
    · exact ⟨by omega, Or.inr (by omega)⟩
    · exact ⟨by omega, Or.inr (by omega)⟩
    · exact ⟨by omega, Or.inr (by omega)⟩

set_option maxRecDepth 8192 in
lemma pctByte_shape (b : Nat) (hb : b < 256) (hne : b ≠ 58) :
    BlockShape (pctByte b) := by
  refine Or.inr ⟨hexDigit (b / 16), hexDigit (b % 16), rfl, ?_, ?_, ?_⟩
  · have hx : ∀ n, n < 16 → hexDigit n ≠ '%' := by decide
    exact hx _ (by omega)
  · have hx : ∀ n, n < 16 → hexDigit n ≠ '%' := by decide
    exact hx _ (by omega)
  · rintro ⟨e1, e2⟩
    have hx : ∀ n, n < 16 → hexDigit n = '3' → n = 3 := by decide
    have hy : ∀ n, n < 16 → hexDigit n = 'A' → n = 10 := by decide
    have h3 := hx _ (by omega) e1
    have h10 := hy _ (by omega) e2
    omega

lemma charBlocks_shape (c : Char) : ∀ b ∈ charBlocks c, BlockShape b := by
  intro b hb
  unfold charBlocks at hb
  split_ifs at hb with h1 h2
  · simp only [List.mem_singleton] at hb
    subst hb
    exact Or.inl ⟨'+', rfl, by decide⟩
  · simp only [List.mem_singleton] at hb
    subst hb
    refine Or.inl ⟨c, rfl, ?_⟩
    rintro rfl
    revert h2
    decide
  · simp only [List.mem_map] at hb
    obtain ⟨byt, hmem, rfl⟩ := hb
    obtain ⟨hlt, hor⟩ := utf8Bytes_bounds c byt hmem
    refine pctByte_shape byt hlt ?_
    rcases hor with rfl | hge
    · intro h58
      have hcolon : c = ':' := by
        have h0 := Char.ofNat_toNat c
        rw [h58] at h0
        exact h0.symm
      subst hcolon
      exact h2 (by decide)
    · omega

lemma strBlocks_shape (s : String) : ∀ b ∈ strBlocks s, BlockShape b := by
  intro b hb
  unfold strBlocks at hb
  simp only [List.mem_flatten, List.mem_map] at hb
  obtain ⟨bs, ⟨c, _, rfl⟩, hbbs⟩ := hb
  exact charBlocks_shape c b hbbs

lemma pairBlocks_shape (kv : String × String) :
    ∀ b ∈ pairBlocks kv, BlockShape b := by
  intro b hb
  unfold pairBlocks at hb
  simp only [List.mem_append, List.mem_singleton] at hb
  rcases hb with (hb | rfl) | hb
  · exact strBlocks_shape _ b hb
  · exact Or.inl ⟨'=', rfl, by decide⟩
  · exact strBlocks_shape _ b hb

lemma allBlocks_shape (params : List (String × String)) :
    ∀ b ∈ allBlocks params, BlockShape b := by
  induction params with
  | nil => intro b hb; simp [allBlocks] at hb
  | cons kv rest ih =>
    cases rest with
    | nil =>
      intro b hb
      simp only [allBlocks] at hb
      exact pairBlocks_shape kv b hb
    | cons kv2 rest2 =>
      intro b hb
      simp only [allBlocks, List.mem_append, List.mem_singleton] at hb
      rcases hb with (hb | rfl) | hb
      · exact pairBlocks_shape kv b hb
      · exact Or.inl ⟨'&', rfl, by decide⟩
      · exact ih b hb

lemma colon_mem_quotePlusColon (v : String) (hv : ':' ∈ v.data) :
    ':' ∈ quotePlusColon v := by
  unfold quotePlusColon
  simp only [List.mem_flatten, List.mem_map]
  exact ⟨[':'], ⟨':', hv, rfl⟩, by simp⟩

lemma colon_mem_urlencode :
    ∀ (params : List (String × String)) (k v : String),
      (k, v) ∈ params → ':' ∈ v.data → ':' ∈ urlencodeChars params := by
  intro params
  induction params with
  | nil => intro k v hkv _; cases hkv
  | cons kv rest ih =>
    intro k v hkv hv
    have hmemseg : ':' ∈ pairSeg (k, v) := by
      simp only [pairSeg, List.mem_append, List.mem_cons]
      exact Or.inr (Or.inr (colon_mem_quotePlusColon v hv))
    rcases List.mem_cons.mp hkv with heq | hmem
    · subst heq
      cases rest with
      | nil => exact hmemseg
      | cons kv2 rest2 =>
        simp only [urlencodeChars, List.mem_append]
        exact Or.inl hmemseg
    · cases rest with
      | nil => cases hmem
      | cons kv2 rest2 =>
        have hrec := ih k v hmem hv
        simp only [urlencodeChars, List.mem_append, List.mem_cons]
        exact Or.inr (Or.inr hrec)

/-- RFC 3986 reserved characters other than the colon (gen-delims and
sub-delims). -/
def reservedNonColon : List Char :=
  ['/', '?', '#', '[', ']', '@', '!', '$', '&', '\'', '(', ')', '*', '+',
    ',', ';', '=']

/-- C6: colons in query-parameter values survive urlencode(params,
safe=":") literally.  A colon in any value appears as a literal colon in
the constructed query string; the percent triple "%3A" never occurs
anywhere in any constructed query string; every reserved URL character
other than the colon is percent-encoded by the standard rule; and the
encoder maps the colon to itself (spaces follow the application/x-www-
form-urlencoded rule, becoming "+"). -/
theorem urlencode_colon_unescaped :
    (∀ (params : List (String × String)) (k v : String),
      (k, v) ∈ params → ':' ∈ v.data → ':' ∈ (query_string params).data) ∧
    (∀ params : List (String × String),
      ¬ hasSub pct3A (query_string params).data) ∧
    (∀ c : Char, c ∈ reservedNonColon →
      quotePlusColonChar c = pctByte c.toNat) ∧
    quotePlusColonChar ':' = [':'] ∧
    quotePlusColonChar ' ' = ['+'] := by
  refine ⟨?_, ?_, by decide, rfl, rfl⟩
  · intro params k v hkv hv
    exact colon_mem_urlencode params k v hkv hv
  · intro params
    show ¬ hasSub pct3A (urlencodeChars params)
    rw [urlencodeChars_eq_flatten]
    exact flatten_no_pct3A _ (allBlocks_shape params)

theorem urlencode_colon_unescaped_witness :
    ':' ∈ (query_string [("round", "2024:3")]).data :=
  urlencode_colon_unescaped.1 [("round", "2024:3")] "round" "2024:3"
    (by simp) (by decide)
